import Mathlib

/-!
Verification of the layer/canvas editing core of the image generator and
editor (src/index.tsx).

The TypeScript source is shallowly embedded: JavaScript numbers used for
layer geometry become `ℚ` (the interaction math is exact on rationals),
the mutable module state (`canvasImages`, `activeImageId`, `isDragging`,
`isResizing`, `dragStart`, `activeHandle`) becomes an explicit
`EditorState` record threaded through the handlers, and the composited
bitmap is abstracted as the ordered sequence of `drawImage` calls
together with the logical canvas size.  Each definition follows the
corresponding source function line by line.
-/

namespace ImageEditor

/-- The `CanvasImage` record of the source.  The `img : HTMLImageElement`
field is represented by the decoded bitmap's natural dimensions, which is
all the editing core reads from it (`img.naturalWidth`,
`img.naturalHeight`). -/
structure CanvasImage where
  id : Nat
  name : String
  naturalWidth : ℚ
  naturalHeight : ℚ
  x : ℚ
  y : ℚ
  width : ℚ
  height : ℚ
  isVisible : Bool
  isLocked : Bool
deriving Repr, DecidableEq

/-- The four corner handles, `type Handle = 'nw' | 'ne' | 'sw' | 'se'`. -/
inductive Handle where
  | nw
  | ne
  | sw
  | se
deriving Repr, DecidableEq

/-- Source test `activeHandle.includes("n")` on the handle name string. -/
def Handle.includesN : Handle → Bool
  | .nw => true
  | .ne => true
  | _ => false

/-- Source test `activeHandle.includes("s")` on the handle name string. -/
def Handle.includesS : Handle → Bool
  | .sw => true
  | .se => true
  | _ => false

/-- Source test `activeHandle.includes("e")` on the handle name string. -/
def Handle.includesE : Handle → Bool
  | .ne => true
  | .se => true
  | _ => false

/-- Source test `activeHandle.includes("w")` on the handle name string. -/
def Handle.includesW : Handle → Bool
  | .nw => true
  | .sw => true
  | _ => false

/-- The corner diagonally opposite a handle. -/
def Handle.opposite : Handle → Handle
  | .nw => .se
  | .ne => .sw
  | .sw => .ne
  | .se => .nw

/-- A point in the canvas's logical coordinate space. -/
structure Pos where
  x : ℚ
  y : ℚ
deriving Repr, DecidableEq

/-- Constant `HANDLE_SIZE = 16`, the logical pixel size of a resize handle. -/
def HANDLE_SIZE : ℚ := 16

/-- Source `getHandlePositions(image)`: the logical coordinates of the four
resize handle centers. -/
def getHandlePositions (image : CanvasImage) : Handle → Pos
  | .nw => ⟨image.x, image.y⟩
  | .ne => ⟨image.x + image.width, image.y⟩
  | .sw => ⟨image.x, image.y + image.height⟩
  | .se => ⟨image.x + image.width, image.y + image.height⟩

/-- The hit-box test of `getHandleAtPos` for a single handle: the point
must fall in the square of side `HANDLE_SIZE * 1.5` centered on the
handle's anchor. -/
def handleHit (image : CanvasImage) (h : Handle) (px py : ℚ) : Bool :=
  let anchor := getHandlePositions image h
  let handleHitboxSize := HANDLE_SIZE * 3 / 2
  decide (anchor.x - handleHitboxSize / 2 ≤ px) &&
  decide (px ≤ anchor.x + handleHitboxSize / 2) &&
  decide (anchor.y - handleHitboxSize / 2 ≤ py) &&
  decide (py ≤ anchor.y + handleHitboxSize / 2)

/-- Source `getHandleAtPos(image, x, y)`: the handles are enumerated in the
object literal order `nw, ne, sw, se` and the first hit wins. -/
def getHandleAtPos (image : CanvasImage) (px py : ℚ) : Option Handle :=
  [Handle.nw, Handle.ne, Handle.sw, Handle.se].find?
    (fun h => handleHit image h px py)

/-- The point-in-rectangle test used by the hit-testing loop of
`handleInteractionStart` (`pos.x >= image.x && ... <= image.y + image.height`). -/
def hitRect (image : CanvasImage) (px py : ℚ) : Bool :=
  decide (image.x ≤ px) && decide (px ≤ image.x + image.width) &&
  decide (image.y ≤ py) && decide (py ≤ image.y + image.height)

/-! ### Normalization (`normalizeImageToBase64`) -/

/-- The geometric output of `normalizeImageToBase64`: the size at which
the source image is drawn and the offset at which it is placed on the
transparent target canvas. -/
structure NormalizedPlacement where
  drawWidth : ℚ
  drawHeight : ℚ
  offsetX : ℚ
  offsetY : ℚ
deriving Repr, DecidableEq

/-- The placement computation of `normalizeImageToBase64`: compare the
image's aspect ratio with the canvas's, size the draw rectangle to fit,
and center it. -/
def normalizeImagePlacement (naturalW naturalH targetW targetH : ℚ) :
    NormalizedPlacement :=
  let imgAspectRatio := naturalW / naturalH
  let canvasAspectRatio := targetW / targetH
  let drawWidth :=
    if imgAspectRatio > canvasAspectRatio then targetW
    else targetH * imgAspectRatio
  let drawHeight :=
    if imgAspectRatio > canvasAspectRatio then targetW / imgAspectRatio
    else targetH
  { drawWidth := drawWidth
    drawHeight := drawHeight
    offsetX := (targetW - drawWidth) / 2
    offsetY := (targetH - drawHeight) / 2 }

/-! ### Layer rename (`stopEditing`) -/

/-- Whitespace as removed by JavaScript's `String.prototype.trim` (for
the character set the editor manipulates). -/
def isJsWhitespace (c : Char) : Bool :=
  c = ' ' || c = '\t' || c = '\n' || c = '\r'

/-- JavaScript's `input.value.trim()`: strip leading and trailing
whitespace. -/
def trimString (s : String) : String :=
  ⟨((s.data.dropWhile isJsWhitespace).reverse.dropWhile isJsWhitespace).reverse⟩

/-- Source `stopEditing` from the layer panel rename flow: commit the trimmed
input as the layer's name only when the trimmed string is truthy
(nonempty); otherwise the name is left unchanged. -/
def stopEditing (inputValue : String) (currentName : String) : String :=
  let newName := trimString inputValue
  if newName = "" then currentName else newName

/-! ### Flatten / composition (`editImage`) -/

/-- The deterministic abstraction of the composite bitmap built by
`editImage`: the logical canvas size of the temporary canvas plus the
ordered sequence of `drawImage(image.img, x, y, width, height)` calls. -/
structure FlattenResult where
  canvasWidth : Nat
  canvasHeight : Nat
  ops : List CanvasImage
deriving Repr, DecidableEq

/-- The paint loop of `editImage` (and `drawCanvas`): walk the stack
back-to-front and draw exactly the visible layers. -/
def flattenVisible : List CanvasImage → List CanvasImage
  | [] => []
  | image :: rest =>
    if image.isVisible then image :: flattenVisible rest
    else flattenVisible rest

/-- The message shown by `editImage` when no visible layer exists. -/
def emptyCompositionMessage : String :=
  "Please add and enable at least one visible image on the canvas for editing."

/-- Source `editImage` up to the external service call: reject the request when
the stack has no visible layer, otherwise composite the visible layers
onto a fresh surface of the canvas's logical size.  The layer stack is
returned alongside the result; the source function never writes to
`canvasImages`. -/
def editImage (images : List CanvasImage) (canvasWidth canvasHeight : Nat) :
    List CanvasImage × Except String FlattenResult :=
  let visibleImages := images.filter (fun img => img.isVisible)
  if visibleImages.length = 0 then
    (images, Except.error emptyCompositionMessage)
  else
    (images, Except.ok
      { canvasWidth := canvasWidth
        canvasHeight := canvasHeight
        ops := flattenVisible images })

/-! ### Interaction state machine -/

/-- The module-level mutable canvas state of the source
(`canvasImages`, `activeImageId`, `isDragging`, `isResizing`,
`dragStart`, `activeHandle`), made explicit. -/
structure EditorState where
  canvasImages : List CanvasImage
  activeImageId : Option Nat
  isDragging : Bool
  isResizing : Bool
  dragStartX : ℚ
  dragStartY : ℚ
  activeHandle : Option Handle
deriving Repr, DecidableEq

/-- Source `canvasImages.find((img) => img.id === activeImageId)`: a `null`
active id matches no layer. -/
def findActive (st : EditorState) : Option CanvasImage :=
  match st.activeImageId with
  | none => none
  | some aid => st.canvasImages.find? (fun img => img.id == aid)

/-- The first phase of `handleInteractionStart`: when the active layer
exists, is visible and unlocked, test its handles; a hit starts a
resize.  The returned flag is `clickedOnSomething` after this phase. -/
def interactionStartResizePhase (st : EditorState) (px py : ℚ) :
    EditorState × Bool :=
  match findActive st with
  | some img =>
    if img.isVisible && !img.isLocked then
      match getHandleAtPos img px py with
      | some hd => ({ st with activeHandle := some hd, isResizing := true }, true)
      | none => ({ st with activeHandle := none }, false)
    else (st, false)
  | none => (st, false)

/-- The hit-testing loop of `handleInteractionStart`, run on the
reversed stack (the source iterates `i` from `canvasImages.length - 1`
down to `0`): the first visible layer containing the point, together
with the (reversed) layers above it and below it. -/
def splitTopHit (px py : ℚ) :
    List CanvasImage → Option (List CanvasImage × CanvasImage × List CanvasImage)
  | [] => none
  | img :: rest =>
    if img.isVisible && hitRect img px py then some ([], img, rest)
    else
      match splitTopHit px py rest with
      | some (above, hit, below) => some (img :: above, hit, below)
      | none => none

/-- The second phase of `handleInteractionStart`: act on the topmost
visible layer under the point.  An unlocked layer starts a drag and is
spliced out and pushed to the top of the stack; a locked layer is only
selected.  The flag is `clickedOnSomething` for this phase. -/
def interactionStartHitPhase (st : EditorState) (px py : ℚ) :
    EditorState × Bool :=
  match splitTopHit px py st.canvasImages.reverse with
  | some (above, image, below) =>
    if image.isLocked then
      ({ st with activeImageId := some image.id }, true)
    else
      ({ st with
          isDragging := true
          dragStartX := px - image.x
          dragStartY := py - image.y
          canvasImages := below.reverse ++ above.reverse ++ [image]
          activeImageId := some image.id }, true)
  | none => (st, false)

/-- Source `handleInteractionStart(pos)`: try the resize handles of the active
layer, then hit-test the stack top-down, and clear the selection when
nothing was clicked. -/
def handleInteractionStart (st : EditorState) (px py : ℚ) : EditorState :=
  let r1 := interactionStartResizePhase st px py
  if r1.2 then r1.1
  else
    let r2 := interactionStartHitPhase r1.1 px py
    if r2.2 then r2.1
    else { r2.1 with activeImageId := none }

/-- The size recomputation of the resize branch of
`handleInteractionMove`: width from the pointer's distance to the fixed
opposite edge for east/west handles, height likewise for north/south
handles, the missing dimension derived through the bitmap's natural
aspect ratio.  Returns `(newWidth, newHeight)`. -/
def resizeNewSize (image : CanvasImage) (h : Handle) (px py : ℚ) : ℚ × ℚ :=
  let aspectRatio := image.naturalWidth / image.naturalHeight
  let originalRight := image.x + image.width
  let originalBottom := image.y + image.height
  let widthChanged := h.includesE || h.includesW
  let w1 :=
    if h.includesE then px - image.x
    else if h.includesW then originalRight - px
    else image.width
  let h1 :=
    if h.includesS then py - image.y
    else if h.includesN then originalBottom - py
    else image.height
  let w2 :=
    if h.includesS || h.includesN then
      (if widthChanged then w1 else h1 * aspectRatio)
    else w1
  let h2 := if widthChanged then w2 / aspectRatio else h1
  (w2, h2)

/-- The resize branch of `handleInteractionMove` applied to the active
layer: `y` and `x` are recomputed from the fixed bottom/right edges
whenever the handle has a north/west component (unconditionally, before
the minimum-size check), while `width` and `height` are committed only
when both recomputed dimensions exceed 20. -/
def resizeImage (image : CanvasImage) (h : Handle) (px py : ℚ) : CanvasImage :=
  let newWidth := (resizeNewSize image h px py).1
  let newHeight := (resizeNewSize image h px py).2
  { image with
    y := if h.includesN then image.y + image.height - newHeight else image.y
    x := if h.includesW then image.x + image.width - newWidth else image.x
    width := if 20 < newWidth ∧ 20 < newHeight then newWidth else image.width
    height := if 20 < newWidth ∧ 20 < newHeight then newHeight else image.height }

/-- In-place mutation of the layer object found by
`canvasImages.find(...)`: rewrite the first layer carrying the given id. -/
def updateFirst (aid : Nat) (f : CanvasImage → CanvasImage) :
    List CanvasImage → List CanvasImage
  | [] => []
  | img :: rest =>
    if img.id == aid then f img :: rest
    else img :: updateFirst aid f rest

/-- Source `handleInteractionMove(pos)`: no-op without an unlocked active
layer; resize when `isResizing && activeHandle`, otherwise drag when
`isDragging`, repositioning the layer by the offset recorded at the
start of the gesture. -/
def handleInteractionMove (st : EditorState) (px py : ℚ) : EditorState :=
  match findActive st with
  | none => st
  | some image =>
    if image.isLocked then st
    else
      let dragged :=
        { st with canvasImages := (updateFirst image.id
            (fun img => { img with
              x := px - st.dragStartX
              y := py - st.dragStartY }) st.canvasImages) }
      match st.isResizing, st.activeHandle with
      | true, some hd =>
        { st with canvasImages := (updateFirst image.id
            (fun img => resizeImage img hd px py) st.canvasImages) }
      | true, none => if st.isDragging then dragged else st
      | false, _ => if st.isDragging then dragged else st

/-- Source `handleInteractionEnd()`: clear all transient gesture state. -/
def handleInteractionEnd (st : EditorState) : EditorState :=
  { st with isDragging := false, isResizing := false, activeHandle := none }

/-- A single-point pointer lifecycle event in logical coordinates. -/
inductive PointerEvent where
  | down (px py : ℚ)
  | move (px py : ℚ)
  | up
deriving Repr, DecidableEq

/-- The event dispatch of the mouse/touch wrappers: `mousedown` starts
an interaction, `mousemove` forwards to `handleInteractionMove` only
while a drag or resize is in progress, `mouseup` ends it. -/
def processEvent (st : EditorState) : PointerEvent → EditorState
  | .down px py => handleInteractionStart st px py
  | .move px py =>
    if st.isDragging || st.isResizing then handleInteractionMove st px py
    else st
  | .up => handleInteractionEnd st

/-- Process a sequence of pointer events in order. -/
def processEvents : EditorState → List PointerEvent → EditorState
  | st, [] => st
  | st, e :: es => processEvents (processEvent st e) es

/-! ### Layer stack operations (insert / remove / duplicate) -/

/-- A decoded image file, as seen by `addImagesToCanvas` after its
`Image` has loaded: the file name and the bitmap's natural size. -/
structure ImageFile where
  name : String
  naturalWidth : ℚ
  naturalHeight : ℚ
deriving Repr, DecidableEq

/-- The fit-to-canvas scaling of `addImagesToCanvas`: an image larger
than the canvas in either dimension is scaled down to fit while keeping
its aspect ratio; a smaller image keeps its natural size. -/
def fitToCanvas (maxWidth maxHeight w h : ℚ) : ℚ × ℚ :=
  let imgAspectRatio := w / h
  if w > maxWidth || h > maxHeight then
    if maxWidth / maxHeight > imgAspectRatio then
      (maxHeight * imgAspectRatio, maxHeight)
    else (maxWidth, maxWidth / imgAspectRatio)
  else (w, h)

/-- One layer created inside the `img.onload` callback of
`addImagesToCanvas`: the id is `Date.now() + index` (with `now` the
clock reading of that callback), the position is centered plus a
per-index cascade offset. -/
def makeLayer (canvasW canvasH : ℚ) (now : Nat) (index : Nat)
    (file : ImageFile) : CanvasImage :=
  let wh := fitToCanvas canvasW canvasH file.naturalWidth file.naturalHeight
  { id := now + index
    name := file.name
    naturalWidth := file.naturalWidth
    naturalHeight := file.naturalHeight
    x := (canvasW - wh.1) / 2 + (index : ℚ) * 20
    y := (canvasH - wh.2) / 2 + (index : ℚ) * 20
    width := wh.1
    height := wh.2
    isVisible := true
    isLocked := false }

/-- The per-file body of `addImagesToCanvas`: each file is paired with
the `Date.now()` reading of its own load callback, the new layer is
pushed onto the stack and becomes active. -/
def addImagesAux (canvasW canvasH : ℚ) :
    List (Nat × ImageFile) → Nat → EditorState → EditorState
  | [], _, st => st
  | (now, file) :: rest, index, st =>
    let img := makeLayer canvasW canvasH now index file
    addImagesAux canvasW canvasH rest (index + 1)
      { st with
        canvasImages := st.canvasImages ++ [img]
        activeImageId := some img.id }

/-- Source `addImagesToCanvas(files)` for an already-sized canvas: every file
of the batch is decoded and appended, indices counting from 0. -/
def addImagesToCanvas (st : EditorState) (canvasW canvasH : ℚ)
    (files : List (Nat × ImageFile)) : EditorState :=
  addImagesAux canvasW canvasH files 0 st

/-- Source `deleteLayer(id)`: drop every layer carrying the id and clear the
selection when it pointed at the deleted id. -/
def deleteLayer (st : EditorState) (id : Nat) : EditorState :=
  { st with
    canvasImages := st.canvasImages.filter (fun img => img.id != id)
    activeImageId :=
      if st.activeImageId = some id then none else st.activeImageId }

/-- JavaScript `Array.prototype.splice(n, 0, a)`: insert at position `n`, clamped
to the end of the list. -/
def insertAt {α : Type} : Nat → α → List α → List α
  | 0, a, l => a :: l
  | _ + 1, a, [] => [a]
  | n + 1, a, b :: l => b :: insertAt n a l

/-- Source `duplicateLayer(id)`: copy the layer found by id with a fresh
`Date.now()` id, a `(+20, +20)` offset and a derived name, splice the
copy in right after the original, and select it. -/
def duplicateLayer (st : EditorState) (now : Nat) (id : Nat) : EditorState :=
  match st.canvasImages.find? (fun img => img.id == id) with
  | none => st
  | some imageToDuplicate =>
    let newImage :=
      { imageToDuplicate with
        id := now
        x := imageToDuplicate.x + 20
        y := imageToDuplicate.y + 20
        name := imageToDuplicate.name ++ " copy" }
    let originalIndex := st.canvasImages.findIdx (fun img => img.id == id)
    { st with
      canvasImages := insertAt (originalIndex + 1) newImage st.canvasImages
      activeImageId := some newImage.id }

/-- A layer-panel operation, carrying the clock readings the source
takes via `Date.now()`. -/
inductive LayerOp where
  | add (canvasW canvasH : ℚ) (files : List (Nat × ImageFile))
  | remove (id : Nat)
  | dup (now : Nat) (id : Nat)
deriving Repr

/-- Apply one layer operation. -/
def applyLayerOp (st : EditorState) : LayerOp → EditorState
  | .add cw ch files => addImagesToCanvas st cw ch files
  | .remove id => deleteLayer st id
  | .dup now id => duplicateLayer st now id

/-- Apply a sequence of layer operations in order. -/
def applyLayerOps : EditorState → List LayerOp → EditorState
  | st, [] => st
  | st, op :: ops => applyLayerOps (applyLayerOp st op) ops

/-- The ids generated by one `addImagesToCanvas` batch starting at a
given index. -/
def batchIds : List (Nat × ImageFile) → Nat → List Nat
  | [], _ => []
  | (now, _) :: rest, index => (now + index) :: batchIds rest (index + 1)

/-- The ids an operation will assign to newly created layers. -/
def opIds : LayerOp → List Nat
  | .add _ _ files => batchIds files 0
  | .remove _ => []
  | .dup now _ => [now]

/-- The ids currently present in the stack, in order. -/
def layerIds (st : EditorState) : List Nat :=
  st.canvasImages.map (fun img => img.id)

/-- Freshness of one operation's clock readings with respect to a
state: the generated ids are pairwise distinct and absent from the
stack.  `Date.now()` gives no such guarantee; this is the hypothesis
under which the uniqueness invariant is provable. -/
def opFresh (st : EditorState) (op : LayerOp) : Prop :=
  (opIds op).Nodup ∧ ∀ n ∈ opIds op, n ∉ layerIds st

/-- Freshness of every operation of a sequence with respect to the
state it is applied to. -/
def FreshSeq : EditorState → List LayerOp → Prop
  | _, [] => True
  | st, op :: ops => opFresh st op ∧ FreshSeq (applyLayerOp st op) ops

/-- The active id, when set, names a layer of the stack. -/
def activeResolves (st : EditorState) : Prop :=
  ∀ aid, st.activeImageId = some aid → aid ∈ layerIds st

/-- The data-model invariant of the layer stack: pairwise distinct ids
and a resolvable active id. -/
def stackInv (st : EditorState) : Prop :=
  (layerIds st).Nodup ∧ activeResolves st

/-! ### Specification-side definition for the hit-testing claim -/

/-- Written from the spec's words, for comparison with
`handleInteractionStart`: "the first layer, iterating from topmost
(last element) to bottommost, that is visible and whose rectangle
contains the point". -/
def specTopmostVisibleHit (images : List CanvasImage) (px py : ℚ) :
    Option CanvasImage :=
  images.reverse.find? (fun img => img.isVisible && hitRect img px py)

/-! ### Concrete states used by counterexamples and witnesses -/

/-- The initial module state: empty stack, no selection, no gesture. -/
def emptyState : EditorState :=
  { canvasImages := [], activeImageId := none, isDragging := false,
    isResizing := false, dragStartX := 0, dragStartY := 0, activeHandle := none }

/-- A 100×100 unlocked visible layer at the origin with a square bitmap. -/
def c1layer : CanvasImage :=
  { id := 1, name := "photo", naturalWidth := 100, naturalHeight := 100,
    x := 0, y := 0, width := 100, height := 100,
    isVisible := true, isLocked := false }

/-- A resize gesture in progress on `c1layer` with the `nw` handle. -/
def c1state : EditorState :=
  { canvasImages := [c1layer], activeImageId := some 1, isDragging := false,
    isResizing := true, dragStartX := 0, dragStartY := 0,
    activeHandle := some Handle.nw }

/-- A hidden layer for the flatten scenario. -/
def c7hidden : CanvasImage :=
  { id := 3, name := "hidden", naturalWidth := 40, naturalHeight := 40,
    x := 5, y := 5, width := 40, height := 40,
    isVisible := false, isLocked := false }

/-- A visible locked layer for the flatten scenario. -/
def c7visible : CanvasImage :=
  { id := 4, name := "shown", naturalWidth := 60, naturalHeight := 30,
    x := 10, y := 20, width := 60, height := 30,
    isVisible := true, isLocked := true }

/-- An invisible-only stack for the empty-composition witness. -/
def c6hidden : CanvasImage :=
  { id := 9, name := "off", naturalWidth := 10, naturalHeight := 10,
    x := 0, y := 0, width := 10, height := 10,
    isVisible := false, isLocked := false }

/-- A 50×50 image file whose load callback read the clock at 100. -/
def c8file : ImageFile :=
  { name := "a.png", naturalWidth := 50, naturalHeight := 50 }

/-- The colliding operation sequence: add one image when `Date.now()`
reads 100, then duplicate that layer while the clock still reads 100. -/
def c8collidingOps : List LayerOp :=
  [LayerOp.add 1024 1024 [(100, c8file)], LayerOp.dup 100 100]

/-- A fresh operation sequence: two adds and a duplicate whose clock
readings generate ids absent from the stack. -/
def c8freshOps : List LayerOp :=
  [LayerOp.add 1024 1024 [(100, c8file), (100, c8file)],
   LayerOp.remove 101,
   LayerOp.dup 500 100]

/-- Bottom layer of the overlapping-selection scenario. -/
def c9bottom : CanvasImage :=
  { id := 1, name := "bottom", naturalWidth := 50, naturalHeight := 50,
    x := 0, y := 0, width := 50, height := 50,
    isVisible := true, isLocked := false }

/-- Top layer of the overlapping-selection scenario, fully covering
`c9bottom`. -/
def c9top : CanvasImage :=
  { id := 2, name := "top", naturalWidth := 50, naturalHeight := 50,
    x := 0, y := 0, width := 50, height := 50,
    isVisible := true, isLocked := false }

/-- Idle state with two fully overlapping visible layers. -/
def c9state : EditorState :=
  { canvasImages := [c9bottom, c9top], activeImageId := none,
    isDragging := false, isResizing := false,
    dragStartX := 0, dragStartY := 0, activeHandle := none }

/-- A locked layer for the locked-drag scenario. -/
def c3locked : CanvasImage :=
  { id := 7, name := "pinned", naturalWidth := 50, naturalHeight := 50,
    x := 5, y := 5, width := 50, height := 50,
    isVisible := true, isLocked := true }

/-- Idle state whose only layer is locked. -/
def c3lockedState : EditorState :=
  { canvasImages := [c3locked], activeImageId := none, isDragging := false,
    isResizing := false, dragStartX := 0, dragStartY := 0, activeHandle := none }

/-- The same layer after unlocking. -/
def c3unlocked : CanvasImage :=
  { c3locked with isLocked := false }

/-- Idle state whose only layer is the unlocked copy. -/
def c3unlockedState : EditorState :=
  { c3lockedState with canvasImages := [c3unlocked] }

/-! ### Helper lemmas: handle components -/

@[simp] lemma includesN_nw : Handle.nw.includesN = true := rfl
@[simp] lemma includesN_ne : Handle.ne.includesN = true := rfl
@[simp] lemma includesN_sw : Handle.sw.includesN = false := rfl
@[simp] lemma includesN_se : Handle.se.includesN = false := rfl
@[simp] lemma includesS_nw : Handle.nw.includesS = false := rfl
@[simp] lemma includesS_ne : Handle.ne.includesS = false := rfl
@[simp] lemma includesS_sw : Handle.sw.includesS = true := rfl
@[simp] lemma includesS_se : Handle.se.includesS = true := rfl
@[simp] lemma includesE_nw : Handle.nw.includesE = false := rfl
@[simp] lemma includesE_ne : Handle.ne.includesE = true := rfl
@[simp] lemma includesE_sw : Handle.sw.includesE = false := rfl
@[simp] lemma includesE_se : Handle.se.includesE = true := rfl
@[simp] lemma includesW_nw : Handle.nw.includesW = true := rfl
@[simp] lemma includesW_ne : Handle.ne.includesW = false := rfl
@[simp] lemma includesW_sw : Handle.sw.includesW = true := rfl
@[simp] lemma includesW_se : Handle.se.includesW = false := rfl
@[simp] lemma opposite_nw : Handle.nw.opposite = Handle.se := rfl
@[simp] lemma opposite_ne : Handle.ne.opposite = Handle.sw := rfl
@[simp] lemma opposite_sw : Handle.sw.opposite = Handle.ne := rfl
@[simp] lemma opposite_se : Handle.se.opposite = Handle.nw := rfl

/-- Propositional characterization of the rectangle hit test. -/
lemma hitRect_eq_true_iff (image : CanvasImage) (px py : ℚ) :
    hitRect image px py = true ↔
      image.x ≤ px ∧ px ≤ image.x + image.width ∧
      image.y ≤ py ∧ py ≤ image.y + image.height := by
  simp [hitRect, and_assoc]

/-! ### Helper lemmas: normalization geometry -/

/-- The drawn width never exceeds the target width. -/
lemma normalize_drawWidth_le (natW natH tgtW tgtH : ℚ) (h2 : 0 < natH)
    (h3 : 0 < tgtW) (h4 : 0 < tgtH) :
    (normalizeImagePlacement natW natH tgtW tgtH).drawWidth ≤ tgtW := by
  simp only [normalizeImagePlacement]
  by_cases hc : natW / natH > tgtW / tgtH
  · rw [if_pos hc]
  · rw [if_neg hc]
    push_neg at hc
    rw [div_le_div_iff₀ h2 h4] at hc
    rw [← mul_div_assoc, div_le_iff₀ h2]
    nlinarith

/-- The drawn height never exceeds the target height. -/
lemma normalize_drawHeight_le (natW natH tgtW tgtH : ℚ) (h2 : 0 < natH)
    (h3 : 0 < tgtW) (h4 : 0 < tgtH) :
    (normalizeImagePlacement natW natH tgtW tgtH).drawHeight ≤ tgtH := by
  simp only [normalizeImagePlacement]
  by_cases hc : natW / natH > tgtW / tgtH
  · rw [if_pos hc]
    have ha : 0 < natW / natH := lt_trans (div_pos h3 h4) hc
    have hx : tgtW * natH < natW * tgtH := by
      rw [gt_iff_lt, div_lt_div_iff₀ h4 h2] at hc
      exact hc
    rw [div_le_iff₀ ha, ← mul_div_assoc, le_div_iff₀ h2]
    nlinarith
  · rw [if_neg hc]

/-- The drawn rectangle keeps the source aspect ratio exactly. -/
lemma normalize_aspect (natW natH tgtW tgtH : ℚ) (h1 : natW ≠ 0)
    (h2 : natH ≠ 0) :
    (normalizeImagePlacement natW natH tgtW tgtH).drawWidth * natH
      = (normalizeImagePlacement natW natH tgtW tgtH).drawHeight * natW := by
  simp only [normalizeImagePlacement]
  by_cases hc : natW / natH > tgtW / tgtH
  · rw [if_pos hc, if_pos hc]
    field_simp
  · rw [if_neg hc, if_neg hc]
    field_simp

/-! ### Helper lemmas: lists and the interaction state machine -/

/-- Lookup `find?` over an append searches the left part first. -/
lemma find?_append_eq {α : Type} (p : α → Bool) (l₁ l₂ : List α) :
    (l₁ ++ l₂).find? p =
      match l₁.find? p with
      | some a => some a
      | none => l₂.find? p := by
  induction l₁ with
  | nil => rfl
  | cons a rest ih =>
    by_cases ha : p a = true
    · simp [List.find?_cons_of_pos _ ha]
    · have ha' : ¬ p a = true := ha
      simp only [List.cons_append, List.find?_cons_of_neg _ ha', ih]

/-- Rewriting the first layer with a given id commutes with looking it
up, provided the rewrite preserves the id. -/
lemma find?_updateFirst (aid : Nat) (f : CanvasImage → CanvasImage)
    (hf : ∀ img, (f img).id = img.id) (l : List CanvasImage) :
    (updateFirst aid f l).find? (fun img => img.id == aid) =
      (l.find? (fun img => img.id == aid)).map f := by
  induction l with
  | nil => rfl
  | cons b rest ih =>
    by_cases hb : (b.id == aid) = true
    · have hfb : ((f b).id == aid) = true := by rw [hf b]; exact hb
      simp only [updateFirst, if_pos hb]
      rw [@List.find?_cons_of_pos _ (fun img => img.id == aid) (f b) rest hfb]
      rw [@List.find?_cons_of_pos _ (fun img => img.id == aid) b rest hb]
      rfl
    · simp only [updateFirst, if_neg hb]
      rw [@List.find?_cons_of_neg _ (fun img => img.id == aid) b
        (updateFirst aid f rest) hb]
      rw [@List.find?_cons_of_neg _ (fun img => img.id == aid) b rest hb]
      exact ih

/-- A locked layer survives `updateFirst` untouched when the rewritten
occurrence (the first layer with the given id) is unlocked. -/
lemma mem_updateFirst_of_unlocked_target (aid : Nat)
    (f : CanvasImage → CanvasImage) (l : List CanvasImage)
    (a target : CanvasImage)
    (hfind : l.find? (fun img => img.id == aid) = some target)
    (htgt : target.isLocked = false)
    (ha : a ∈ l) (hal : a.isLocked = true) :
    a ∈ updateFirst aid f l := by
  induction l with
  | nil => cases ha
  | cons b rest ih =>
    by_cases hb : (b.id == aid) = true
    · rw [@List.find?_cons_of_pos _ (fun img => img.id == aid) b rest hb] at hfind
      have hbt : b = target := by injection hfind
      subst hbt
      simp only [updateFirst, if_pos hb]
      rcases List.mem_cons.mp ha with rfl | h
      · rw [hal] at htgt; cases htgt
      · exact List.mem_cons_of_mem _ h
    · rw [@List.find?_cons_of_neg _ (fun img => img.id == aid) b rest hb] at hfind
      simp only [updateFirst, if_neg hb]
      rcases List.mem_cons.mp ha with rfl | h
      · exact List.mem_cons_self _ _
      · exact List.mem_cons_of_mem _ (ih hfind h)

/-- Membership in a clamped insertion. -/
lemma mem_insertAt {α : Type} (n : Nat) (a x : α) :
    ∀ l : List α, x ∈ insertAt n a l ↔ x = a ∨ x ∈ l := by
  induction n with
  | zero => intro l; simp [insertAt]
  | succ m ih =>
    intro l
    cases l with
    | nil => simp [insertAt]
    | cons b rest => simp [insertAt, ih rest]; tauto

/-- A clamped insertion of a fresh element preserves `Nodup`. -/
lemma nodup_insertAt {α : Type} [DecidableEq α] (n : Nat) (a : α) :
    ∀ l : List α, l.Nodup → a ∉ l → (insertAt n a l).Nodup := by
  induction n with
  | zero => intro l hl ha; exact List.nodup_cons.mpr ⟨ha, hl⟩
  | succ m ih =>
    intro l hl ha
    cases l with
    | nil => simp [insertAt]
    | cons b rest =>
      rw [List.nodup_cons] at hl
      have hb : b ∉ insertAt m a rest := by
        rw [mem_insertAt]
        rintro (rfl | h)
        · exact ha (List.mem_cons_self _ _)
        · exact hl.1 h
      have har : a ∉ rest := fun h => ha (List.mem_cons_of_mem _ h)
      exact List.nodup_cons.mpr ⟨hb, ih rest hl.2 har⟩

/-- Insertion `insertAt` commutes with `map`. -/
lemma map_insertAt {α β : Type} (f : α → β) (n : Nat) (a : α) :
    ∀ l : List α, (insertAt n a l).map f = insertAt n (f a) (l.map f) := by
  induction n with
  | zero => intro l; rfl
  | succ m ih =>
    intro l
    cases l with
    | nil => rfl
    | cons b rest => simp [insertAt, ih rest]

/-- A successful top-down hit decomposes the (reversed) stack around
the hit layer. -/
lemma splitTopHit_eq_append (px py : ℚ) :
    ∀ (l above below : List CanvasImage) (img : CanvasImage),
      splitTopHit px py l = some (above, img, below) →
      l = above ++ img :: below := by
  intro l
  induction l with
  | nil => intro a b i h; cases h
  | cons c rest ih =>
    intro above below img h
    unfold splitTopHit at h
    by_cases hc : (c.isVisible && hitRect c px py) = true
    · rw [if_pos hc] at h
      have h' : ([], c, rest) = ((above, img, below) :
          List CanvasImage × CanvasImage × List CanvasImage) := by
        injection h
      obtain ⟨h1, h2, h3⟩ : [] = above ∧ c = img ∧ rest = below := by
        simpa [Prod.ext_iff] using h'
      subst h1; subst h2; subst h3
      rfl
    · rw [if_neg hc] at h
      cases hsp : splitTopHit px py rest with
      | none => rw [hsp] at h; cases h
      | some t =>
        obtain ⟨a2, i2, b2⟩ := t
        rw [hsp] at h
        have h' : (c :: a2, i2, b2) = ((above, img, below) :
            List CanvasImage × CanvasImage × List CanvasImage) := by
          injection h
        obtain ⟨h1, h2, h3⟩ : c :: a2 = above ∧ i2 = img ∧ b2 = below := by
          simpa [Prod.ext_iff] using h'
        subst h1; subst h2; subst h3
        rw [List.cons_append]
        rw [ih a2 b2 i2 hsp]

/-- The layer found by the top-down loop is the first hit of the
reversed stack. -/
lemma splitTopHit_find? (px py : ℚ) (l : List CanvasImage) :
    (splitTopHit px py l).map (fun t => t.2.1) =
      l.find? (fun img => img.isVisible && hitRect img px py) := by
  induction l with
  | nil => rfl
  | cons c rest ih =>
    by_cases hc : (c.isVisible && hitRect c px py) = true
    · simp only [splitTopHit, if_pos hc]
      rw [@List.find?_cons_of_pos _ (fun img => img.isVisible && hitRect img px py)
        c rest hc]
      rfl
    · simp only [splitTopHit, if_neg hc]
      rw [@List.find?_cons_of_neg _ (fun img => img.isVisible && hitRect img px py)
        c rest hc]
      rw [← ih]
      cases hsp : splitTopHit px py rest with
      | none => rfl
      | some t => obtain ⟨a2, i2, b2⟩ := t; rfl

/-- The resize phase of `handleInteractionStart` never touches the
stack, the selection, the drag flag or the recorded drag offset. -/
lemma resizePhase_preserves (st : EditorState) (px py : ℚ) :
    (interactionStartResizePhase st px py).1.canvasImages = st.canvasImages
    ∧ (interactionStartResizePhase st px py).1.activeImageId = st.activeImageId
    ∧ (interactionStartResizePhase st px py).1.isDragging = st.isDragging
    ∧ (interactionStartResizePhase st px py).1.dragStartX = st.dragStartX
    ∧ (interactionStartResizePhase st px py).1.dragStartY = st.dragStartY := by
  unfold interactionStartResizePhase
  cases hfa : findActive st with
  | none => exact ⟨rfl, rfl, rfl, rfl, rfl⟩
  | some img =>
    cases hb : img.isVisible && !img.isLocked with
    | true =>
      cases hg : getHandleAtPos img px py with
      | none => simp [hb, hg]
      | some hd => simp [hb, hg]
    | false => simp [hb]

/-- When the resize phase reports no click, `isResizing` is untouched. -/
lemma resizePhase_isResizing (st : EditorState) (px py : ℚ)
    (h : (interactionStartResizePhase st px py).2 = false) :
    (interactionStartResizePhase st px py).1.isResizing = st.isResizing := by
  unfold interactionStartResizePhase at h ⊢
  cases hfa : findActive st with
  | none => rfl
  | some img =>
    rw [hfa] at h
    cases hb : img.isVisible && !img.isLocked with
    | true =>
      cases hg : getHandleAtPos img px py with
      | none => simp [hb, hg]
      | some hd => simp [hb, hg] at h
    | false => simp [hb]

/-- Unpack a successful `findActive`: the selection carries the found
layer's id and the stack lookup keyed by that id returns the layer. -/
lemma findActive_eq_some (st : EditorState) (image : CanvasImage)
    (h : findActive st = some image) :
    st.activeImageId = some image.id
    ∧ st.canvasImages.find? (fun img => img.id == image.id) = some image := by
  unfold findActive at h
  cases hai : st.activeImageId with
  | none => rw [hai] at h; cases h
  | some aid =>
    rw [hai] at h
    have hid : image.id = aid := by
      have hp := List.find?_some h
      simpa using hp
    subst hid
    exact ⟨rfl, h⟩

/-- Unfolding of `handleInteractionMove` in the resizing configuration:
the active layer is rewritten through `resizeImage`. -/
lemma move_resize_eq (st : EditorState) (px py : ℚ) (image : CanvasImage)
    (hd : Handle)
    (hai : st.activeImageId = some image.id)
    (hfind : st.canvasImages.find? (fun img => img.id == image.id) = some image)
    (hlk : image.isLocked = false)
    (hres : st.isResizing = true)
    (hh : st.activeHandle = some hd) :
    handleInteractionMove st px py =
      { st with canvasImages := (updateFirst image.id
          (fun img => resizeImage img hd px py) st.canvasImages) } := by
  unfold handleInteractionMove findActive
  simp only [hai, hfind, hlk, hres, hh]
  rfl

/-- Unfolding of `handleInteractionMove` in the dragging configuration:
the active layer is repositioned by the recorded offset. -/
lemma move_drag_eq (st : EditorState) (px py : ℚ) (image : CanvasImage)
    (hai : st.activeImageId = some image.id)
    (hfind : st.canvasImages.find? (fun img => img.id == image.id) = some image)
    (hlk : image.isLocked = false)
    (hres : st.isResizing = false)
    (hdr : st.isDragging = true) :
    handleInteractionMove st px py =
      { st with canvasImages := (updateFirst image.id
          (fun img => { img with
            x := px - st.dragStartX
            y := py - st.dragStartY }) st.canvasImages) } := by
  unfold handleInteractionMove findActive
  simp only [hai, hfind, hlk, hres, hdr]
  rfl

/-- After a resizing move, the active layer is the resized layer. -/
lemma findActive_after_resize (st : EditorState) (px py : ℚ)
    (image : CanvasImage) (hd : Handle)
    (hfa : findActive st = some image)
    (hlk : image.isLocked = false)
    (hres : st.isResizing = true)
    (hh : st.activeHandle = some hd) :
    findActive (handleInteractionMove st px py)
      = some (resizeImage image hd px py) := by
  obtain ⟨hai, hfind⟩ := findActive_eq_some st image hfa
  rw [move_resize_eq st px py image hd hai hfind hlk hres hh]
  unfold findActive
  simp only [hai]
  rw [find?_updateFirst image.id (fun img => resizeImage img hd px py)
    (fun img => rfl) st.canvasImages, hfind]
  rfl

/-- After a dragging move, the active layer sits at the pointer minus
the recorded offset. -/
lemma findActive_after_drag (st : EditorState) (px py : ℚ)
    (image : CanvasImage)
    (hfa : findActive st = some image)
    (hlk : image.isLocked = false)
    (hres : st.isResizing = false)
    (hdr : st.isDragging = true) :
    findActive (handleInteractionMove st px py)
      = some { image with
          x := px - st.dragStartX
          y := py - st.dragStartY } := by
  obtain ⟨hai, hfind⟩ := findActive_eq_some st image hfa
  rw [move_drag_eq st px py image hai hfind hlk hres hdr]
  unfold findActive
  simp only [hai]
  rw [find?_updateFirst image.id
    (fun img => { img with x := px - st.dragStartX, y := py - st.dragStartY })
    (fun img => rfl) st.canvasImages, hfind]
  rfl

/-- Shape of `handleInteractionStart` when no handle was hit and the
top-down hit test finds an unlocked layer: a drag begins, the layer is
spliced to the top and selected. -/
lemma start_hit_unlocked (st : EditorState) (px py : ℚ)
    (above below : List CanvasImage) (image : CanvasImage)
    (hnr : (interactionStartResizePhase st px py).2 = false)
    (hsp : splitTopHit px py st.canvasImages.reverse = some (above, image, below))
    (hlk : image.isLocked = false) :
    handleInteractionStart st px py =
      { (interactionStartResizePhase st px py).1 with
        isDragging := true
        dragStartX := px - image.x
        dragStartY := py - image.y
        canvasImages := below.reverse ++ above.reverse ++ [image]
        activeImageId := some image.id } := by
  unfold handleInteractionStart interactionStartHitPhase
  simp only [hnr, (resizePhase_preserves st px py).1, hsp, hlk]
  rfl

/-- Shape of `handleInteractionStart` when the top-down hit test finds
a locked layer: selection only. -/
lemma start_hit_locked (st : EditorState) (px py : ℚ)
    (above below : List CanvasImage) (image : CanvasImage)
    (hnr : (interactionStartResizePhase st px py).2 = false)
    (hsp : splitTopHit px py st.canvasImages.reverse = some (above, image, below))
    (hlk : image.isLocked = true) :
    handleInteractionStart st px py =
      { (interactionStartResizePhase st px py).1 with
        activeImageId := some image.id } := by
  unfold handleInteractionStart interactionStartHitPhase
  simp only [hnr, (resizePhase_preserves st px py).1, hsp, hlk]
  rfl

/-- Shape of `handleInteractionStart` when nothing was hit: the
selection is cleared. -/
lemma start_no_hit (st : EditorState) (px py : ℚ)
    (hnr : (interactionStartResizePhase st px py).2 = false)
    (hsp : splitTopHit px py st.canvasImages.reverse = none) :
    handleInteractionStart st px py =
      { (interactionStartResizePhase st px py).1 with
        activeImageId := none } := by
  unfold handleInteractionStart interactionStartHitPhase
  simp only [hnr, (resizePhase_preserves st px py).1, hsp]
  rfl

/-- Shape of `handleInteractionStart` when a handle of the active layer
was hit: only the gesture flags change. -/
lemma start_resize_clicked (st : EditorState) (px py : ℚ)
    (hr : (interactionStartResizePhase st px py).2 = true) :
    handleInteractionStart st px py = (interactionStartResizePhase st px py).1 := by
  unfold handleInteractionStart
  simp only [hr]
  rfl

/-! ### Helper lemmas: layer stack invariants -/

/-- Deleting a layer preserves the stack invariant. -/
lemma stackInv_deleteLayer (st : EditorState) (id : Nat) (h : stackInv st) :
    stackInv (deleteLayer st id) := by
  obtain ⟨hnd, hres⟩ := h
  constructor
  · have hsub : List.Sublist (layerIds (deleteLayer st id)) (layerIds st) :=
      List.Sublist.map _ (List.filter_sublist st.canvasImages)
    exact List.Nodup.sublist hsub hnd
  · intro aid ha
    unfold deleteLayer at ha
    by_cases hcase : st.activeImageId = some id
    · simp only [if_pos hcase] at ha
      cases ha
    · simp only [if_neg hcase] at ha
      have hmem := hres aid ha
      have hne : aid ≠ id := by
        intro he
        subst he
        exact hcase ha
      unfold layerIds at hmem
      rcases List.mem_map.mp hmem with ⟨img, himg, himgid⟩
      show aid ∈ (st.canvasImages.filter (fun img => img.id != id)).map
        (fun img => img.id)
      apply List.mem_map.mpr
      refine ⟨img, List.mem_filter.mpr ⟨himg, ?_⟩, himgid⟩
      simp only [bne_iff_ne, ne_eq]
      rw [himgid]
      exact hne

/-- Appending a batch of freshly-identified layers preserves the stack
invariant. -/
lemma stackInv_addImagesAux (canvasW canvasH : ℚ) :
    ∀ (files : List (Nat × ImageFile)) (index : Nat) (st : EditorState),
      stackInv st → (batchIds files index).Nodup →
      (∀ n ∈ batchIds files index, n ∉ layerIds st) →
      stackInv (addImagesAux canvasW canvasH files index st) := by
  intro files
  induction files with
  | nil => intro index st h _ _; exact h
  | cons p rest ih =>
    obtain ⟨now, file⟩ := p
    intro index st hinv hbn hfresh
    obtain ⟨hnd, hres⟩ := hinv
    have hmem0 : (now + index) ∈ batchIds ((now, file) :: rest) index := by
      simp [batchIds]
    have hni : (now + index) ∉ layerIds st := hfresh _ hmem0
    have hids : layerIds { st with
        canvasImages := st.canvasImages ++
          [makeLayer canvasW canvasH now index file]
        activeImageId := some (makeLayer canvasW canvasH now index file).id }
        = layerIds st ++ [now + index] := by
      simp [layerIds, makeLayer]
    apply ih (index + 1)
    · constructor
      · rw [hids]
        rw [List.nodup_append]
        refine ⟨hnd, List.nodup_singleton _, ?_⟩
        intro a hha hb
        rcases List.mem_singleton.mp hb with rfl
        exact hni hha
      · intro aid ha
        have h1 : some ((makeLayer canvasW canvasH now index file).id)
            = some aid := ha
        have h2 : aid = now + index := (Option.some.inj h1).symm
        rw [hids]
        subst h2
        simp
    · rw [batchIds, List.nodup_cons] at hbn
      exact hbn.2
    · intro n hn
      have hn1 : n ∈ batchIds ((now, file) :: rest) index := by
        rw [batchIds]
        exact List.mem_cons_of_mem _ hn
      have h1 : n ∉ layerIds st := hfresh n hn1
      have h2 : n ≠ now + index := by
        intro he
        rw [batchIds, List.nodup_cons] at hbn
        exact hbn.1 (he ▸ hn)
      rw [hids]
      intro hmem
      rcases List.mem_append.mp hmem with hl | hr
      · exact h1 hl
      · exact h2 (List.mem_singleton.mp hr)

/-- Duplicating a layer with a fresh id preserves the stack invariant. -/
lemma stackInv_duplicateLayer (st : EditorState) (now id : Nat)
    (h : stackInv st) (hfresh : now ∉ layerIds st) :
    stackInv (duplicateLayer st now id) := by
  obtain ⟨hnd, hres⟩ := h
  unfold duplicateLayer
  cases hf : st.canvasImages.find? (fun img => img.id == id) with
  | none => exact ⟨hnd, hres⟩
  | some imageToDuplicate =>
    set newImage : CanvasImage :=
      { imageToDuplicate with
        id := now
        x := imageToDuplicate.x + 20
        y := imageToDuplicate.y + 20
        name := imageToDuplicate.name ++ " copy" } with hnew
    set k : Nat := st.canvasImages.findIdx (fun img => img.id == id) + 1 with hk
    constructor
    · show ((insertAt k newImage st.canvasImages).map (fun img => img.id)).Nodup
      rw [map_insertAt]
      exact nodup_insertAt _ _ _ hnd hfresh
    · intro aid ha
      have h1 : some newImage.id = some aid := ha
      have h2 : aid = now := (Option.some.inj h1).symm
      subst h2
      show aid ∈ (insertAt k newImage st.canvasImages).map (fun img => img.id)
      rw [map_insertAt]
      exact (mem_insertAt _ _ _ _).mpr (Or.inl rfl)

/-! ### Helper lemmas: persistence of layers across pointer events -/

/-- Function `handleInteractionStart` only reorders the stack: every layer
record survives. -/
lemma mem_start_canvasImages (st : EditorState) (px py : ℚ) (a : CanvasImage)
    (ha : a ∈ st.canvasImages) :
    a ∈ (handleInteractionStart st px py).canvasImages := by
  by_cases h1 : (interactionStartResizePhase st px py).2 = true
  · rw [start_resize_clicked st px py h1, (resizePhase_preserves st px py).1]
    exact ha
  · have hnr : (interactionStartResizePhase st px py).2 = false := by
      simpa using h1
    cases hsp : splitTopHit px py st.canvasImages.reverse with
    | none =>
      rw [start_no_hit st px py hnr hsp]
      show a ∈ (interactionStartResizePhase st px py).1.canvasImages
      rw [(resizePhase_preserves st px py).1]
      exact ha
    | some t =>
      obtain ⟨above, image, below⟩ := t
      cases hlk : image.isLocked with
      | true =>
        rw [start_hit_locked st px py above below image hnr hsp hlk]
        show a ∈ (interactionStartResizePhase st px py).1.canvasImages
        rw [(resizePhase_preserves st px py).1]
        exact ha
      | false =>
        rw [start_hit_unlocked st px py above below image hnr hsp hlk]
        show a ∈ below.reverse ++ above.reverse ++ [image]
        have hrev : st.canvasImages = (above ++ image :: below).reverse := by
          rw [← splitTopHit_eq_append px py _ above below image hsp,
            List.reverse_reverse]
        rw [hrev] at ha
        simp only [List.mem_reverse, List.mem_append, List.mem_cons] at ha
        simp only [List.mem_append, List.mem_reverse, List.mem_singleton]
        tauto

/-- Function `handleInteractionMove` never rewrites a locked layer. -/
lemma locked_mem_move (st : EditorState) (px py : ℚ) (a : CanvasImage)
    (ha : a ∈ st.canvasImages) (hal : a.isLocked = true) :
    a ∈ (handleInteractionMove st px py).canvasImages := by
  unfold handleInteractionMove
  cases hfa : findActive st with
  | none => exact ha
  | some image =>
    dsimp only
    have hfind : st.canvasImages.find? (fun img => img.id == image.id)
        = some image := (findActive_eq_some st image hfa).2
    cases hlk : image.isLocked with
    | true => exact ha
    | false =>
      have hdragged : a ∈ updateFirst image.id
          (fun img => { img with
            x := px - st.dragStartX
            y := py - st.dragStartY }) st.canvasImages :=
        mem_updateFirst_of_unlocked_target image.id _
          st.canvasImages a image hfind hlk ha hal
      cases hr : st.isResizing with
      | true =>
        cases hh : st.activeHandle with
        | some hd =>
          show a ∈ updateFirst image.id
            (fun img => resizeImage img hd px py) st.canvasImages
          exact mem_updateFirst_of_unlocked_target image.id _
            st.canvasImages a image hfind hlk ha hal
        | none =>
          cases hdr : st.isDragging with
          | true => exact hdragged
          | false => exact ha
      | false =>
        cases hh : st.activeHandle with
        | some hd =>
          cases hdr : st.isDragging with
          | true => exact hdragged
          | false => exact ha
        | none =>
          cases hdr : st.isDragging with
          | true => exact hdragged
          | false => exact ha

/-- One pointer event never rewrites a locked layer. -/
lemma locked_mem_processEvent (st : EditorState) (e : PointerEvent)
    (a : CanvasImage) (ha : a ∈ st.canvasImages) (hal : a.isLocked = true) :
    a ∈ (processEvent st e).canvasImages := by
  cases e with
  | up => exact ha
  | down px py => exact mem_start_canvasImages st px py a ha
  | move px py =>
    unfold processEvent
    dsimp only
    by_cases hm : (st.isDragging || st.isResizing) = true
    · rw [if_pos hm]
      exact locked_mem_move st px py a ha hal
    · rw [if_neg hm]
      exact ha

/-- A locked layer record survives any sequence of pointer events
unchanged. -/
lemma locked_mem_processEvents (events : List PointerEvent) :
    ∀ (st : EditorState) (a : CanvasImage), a ∈ st.canvasImages →
      a.isLocked = true → a ∈ (processEvents st events).canvasImages := by
  induction events with
  | nil => intro st a ha _; exact ha
  | cons e rest ih =>
    intro st a ha hal
    exact ih (processEvent st e) a (locked_mem_processEvent st e a ha hal) hal

/-! ### Claim theorems -/

/-- C4, counterexample: normalize does not use the image's native
resolution as an upper bound.  A 10×10 source normalized to a 1024×1024
target is drawn at 1024×1024 — scaled up far beyond its natural width
of 10. -/
theorem C4_counterexample :
    (normalizeImagePlacement 10 10 1024 1024).drawWidth = 1024
    ∧ ¬ (normalizeImagePlacement 10 10 1024 1024).drawWidth ≤ 10
    ∧ ¬ (normalizeImagePlacement 10 10 1024 1024).drawHeight ≤ 10 := by
  refine ⟨?_, ?_, ?_⟩ <;> norm_num [normalizeImagePlacement]

/-- C4 (amended): normalize scales the image to fit the target — never
beyond it — preserving the source aspect ratio exactly and centering
the result on the transparent target surface; the image's native
resolution is not an upper bound, so a smaller image is scaled up. -/
theorem C4_normalize_fit_amended (natW natH tgtW tgtH : ℚ)
    (h1 : 0 < natW) (h2 : 0 < natH) (h3 : 0 < tgtW) (h4 : 0 < tgtH) :
    (normalizeImagePlacement natW natH tgtW tgtH).drawWidth ≤ tgtW
    ∧ (normalizeImagePlacement natW natH tgtW tgtH).drawHeight ≤ tgtH
    ∧ (normalizeImagePlacement natW natH tgtW tgtH).drawWidth * natH
        = (normalizeImagePlacement natW natH tgtW tgtH).drawHeight * natW
    ∧ (normalizeImagePlacement natW natH tgtW tgtH).offsetX
        = (tgtW - (normalizeImagePlacement natW natH tgtW tgtH).drawWidth) / 2
    ∧ (normalizeImagePlacement natW natH tgtW tgtH).offsetY
        = (tgtH - (normalizeImagePlacement natW natH tgtW tgtH).drawHeight) / 2 :=
  ⟨normalize_drawWidth_le natW natH tgtW tgtH h2 h3 h4,
   normalize_drawHeight_le natW natH tgtW tgtH h2 h3 h4,
   normalize_aspect natW natH tgtW tgtH (ne_of_gt h1) (ne_of_gt h2),
   rfl, rfl⟩

/-- C4 witness: the amended statement at the 2000×1000 image and
1024×1024 target of the spec's scenario. -/
theorem C4_normalize_fit_amended_witness :
    (0 : ℚ) < 2000 ∧ (0 : ℚ) < 1000 ∧ (0 : ℚ) < 1024 ∧ (0 : ℚ) < 1024
    ∧ ((normalizeImagePlacement 2000 1000 1024 1024).drawWidth ≤ 1024
      ∧ (normalizeImagePlacement 2000 1000 1024 1024).drawHeight ≤ 1024
      ∧ (normalizeImagePlacement 2000 1000 1024 1024).drawWidth * 1000
          = (normalizeImagePlacement 2000 1000 1024 1024).drawHeight * 2000
      ∧ (normalizeImagePlacement 2000 1000 1024 1024).offsetX
          = (1024 - (normalizeImagePlacement 2000 1000 1024 1024).drawWidth) / 2
      ∧ (normalizeImagePlacement 2000 1000 1024 1024).offsetY
          = (1024 - (normalizeImagePlacement 2000 1000 1024 1024).drawHeight) / 2) :=
  ⟨by norm_num, by norm_num, by norm_num, by norm_num,
   C4_normalize_fit_amended 2000 1000 1024 1024
     (by norm_num) (by norm_num) (by norm_num) (by norm_num)⟩

/-- C5: for positive natural and target dimensions, the drawn image
fits the target (drawWidth ≤ W, drawHeight ≤ H) and is placed exactly
at offsetX = (W − drawWidth)/2, offsetY = (H − drawHeight)/2. -/
theorem C5_normalize_bounds_centered (natW natH tgtW tgtH : ℚ)
    (h1 : 0 < natW) (h2 : 0 < natH) (h3 : 0 < tgtW) (h4 : 0 < tgtH) :
    (normalizeImagePlacement natW natH tgtW tgtH).drawWidth ≤ tgtW
    ∧ (normalizeImagePlacement natW natH tgtW tgtH).drawHeight ≤ tgtH
    ∧ (normalizeImagePlacement natW natH tgtW tgtH).offsetX
        = (tgtW - (normalizeImagePlacement natW natH tgtW tgtH).drawWidth) / 2
    ∧ (normalizeImagePlacement natW natH tgtW tgtH).offsetY
        = (tgtH - (normalizeImagePlacement natW natH tgtW tgtH).drawHeight) / 2 :=
  ⟨normalize_drawWidth_le natW natH tgtW tgtH h2 h3 h4,
   normalize_drawHeight_le natW natH tgtW tgtH h2 h3 h4,
   rfl, rfl⟩

/-- C5 witness: the bounds and exact centering at a 300×200 image
normalized to a 100×400 target. -/
theorem C5_normalize_bounds_centered_witness :
    (0 : ℚ) < 300 ∧ (0 : ℚ) < 200 ∧ (0 : ℚ) < 100 ∧ (0 : ℚ) < 400
    ∧ ((normalizeImagePlacement 300 200 100 400).drawWidth ≤ 100
      ∧ (normalizeImagePlacement 300 200 100 400).drawHeight ≤ 400
      ∧ (normalizeImagePlacement 300 200 100 400).offsetX
          = (100 - (normalizeImagePlacement 300 200 100 400).drawWidth) / 2
      ∧ (normalizeImagePlacement 300 200 100 400).offsetY
          = (400 - (normalizeImagePlacement 300 200 100 400).drawHeight) / 2) :=
  ⟨by norm_num, by norm_num, by norm_num, by norm_num,
   C5_normalize_bounds_centered 300 200 100 400
     (by norm_num) (by norm_num) (by norm_num) (by norm_num)⟩

/-- C6: with zero visible layers, the composition request fails with
the precondition error message, no composite bitmap is produced, and
the layer stack is returned unchanged. -/
theorem C6_empty_composition (images : List CanvasImage)
    (cw ch : Nat)
    (h : (images.filter (fun img => img.isVisible)).length = 0) :
    (editImage images cw ch).2 = Except.error emptyCompositionMessage
    ∧ (editImage images cw ch).1 = images := by
  unfold editImage
  rw [if_pos h]
  exact ⟨rfl, rfl⟩

/-- C6 witness: a stack holding only a hidden layer is rejected. -/
theorem C6_empty_composition_witness :
    (([c6hidden].filter (fun img => img.isVisible)).length = 0)
    ∧ ((editImage [c6hidden] 1024 1024).2
        = Except.error emptyCompositionMessage
      ∧ (editImage [c6hidden] 1024 1024).1 = [c6hidden]) :=
  ⟨by decide, C6_empty_composition [c6hidden] 1024 1024 (by decide)⟩

/-- C7: the flatten loop paints exactly the visible layers in stack
order; with at least one visible layer, `editImage` produces the
composite on a surface of exactly the canvas's logical size; and a
stack of one hidden and one visible layer flattens to the same draw
sequence as the visible layer alone. -/
theorem C7_flatten_visible :
    (∀ images : List CanvasImage,
        flattenVisible images = images.filter (fun img => img.isVisible))
    ∧ (∀ (images : List CanvasImage) (cw ch : Nat),
        (images.filter (fun img => img.isVisible)).length ≠ 0 →
        (editImage images cw ch).2 = Except.ok
          { canvasWidth := cw, canvasHeight := ch,
            ops := flattenVisible images })
    ∧ (∀ hidden visible : CanvasImage, hidden.isVisible = false →
        visible.isVisible = true →
        flattenVisible [hidden, visible] = flattenVisible [visible]) := by
  refine ⟨?_, ?_, ?_⟩
  · intro images
    induction images with
    | nil => rfl
    | cons a rest ih =>
      cases hv : a.isVisible with
      | true => simp [flattenVisible, hv, ih]
      | false => simp [flattenVisible, hv, ih]
  · intro images cw ch h
    unfold editImage
    rw [if_neg h]
  · intro hidden visible hh hv
    simp [flattenVisible, hh, hv]

/-- C7 witness: the three parts at a concrete hidden/visible stack. -/
theorem C7_flatten_visible_witness :
    flattenVisible [c7hidden, c7visible]
      = [c7hidden, c7visible].filter (fun img => img.isVisible)
    ∧ (([c7hidden, c7visible].filter (fun img => img.isVisible)).length ≠ 0
      ∧ (editImage [c7hidden, c7visible] 1024 768).2 = Except.ok
          { canvasWidth := 1024, canvasHeight := 768,
            ops := flattenVisible [c7hidden, c7visible] })
    ∧ (c7hidden.isVisible = false ∧ c7visible.isVisible = true
      ∧ flattenVisible [c7hidden, c7visible] = flattenVisible [c7visible]) :=
  ⟨C7_flatten_visible.1 [c7hidden, c7visible],
   ⟨by decide, C7_flatten_visible.2.1 [c7hidden, c7visible] 1024 768 (by decide)⟩,
   ⟨by decide, by decide,
    C7_flatten_visible.2.2 c7hidden c7visible (by decide) (by decide)⟩⟩

/-- C10: committing a rename trims the input; a whitespace-only input
leaves the name unchanged, any other input installs its trimmed form,
and the committed name can be empty only if the previous name already
was. -/
theorem C10_rename_trim (s current : String) :
    (trimString s = "" → stopEditing s current = current)
    ∧ (trimString s ≠ "" → stopEditing s current = trimString s)
    ∧ (stopEditing s current = "" → current = "") := by
  unfold stopEditing
  by_cases h : trimString s = ""
  · rw [if_pos h]
    exact ⟨fun _ => rfl, fun hne => absurd h hne, fun he => he⟩
  · rw [if_neg h]
    exact ⟨fun he => absurd he h, fun _ => rfl, fun he => absurd he h⟩

/-- C10 witness: a whitespace-only rename is a no-op and a padded
rename installs the trimmed name. -/
theorem C10_rename_trim_witness :
    trimString "   " = "" ∧ stopEditing "   " "Layer 1" = "Layer 1"
    ∧ trimString "  new name " ≠ ""
    ∧ stopEditing "  new name " "Layer 1" = "new name" := by
  refine ⟨by decide, (C10_rename_trim "   " "Layer 1").1 (by decide),
    by decide, ?_⟩
  rw [(C10_rename_trim "  new name " "Layer 1").2.1 (by decide)]
  decide

/-- C8, counterexample: ids are generated from `Date.now()`, which can
repeat.  Adding one image while the clock reads 100 and then
duplicating that layer while the clock still reads 100 yields two
layers that both carry id 100, so ids are not pairwise distinct. -/
theorem C8_counterexample :
    layerIds (applyLayerOps emptyState c8collidingOps) = [100, 100]
    ∧ ¬ (layerIds (applyLayerOps emptyState c8collidingOps)).Nodup := by
  refine ⟨by decide, by decide⟩

/-- C8 (amended): provided every id an operation generates (its
`Date.now()` readings, offset by the batch index) is pairwise distinct
and absent from the stack it is applied to, every sequence of
insert/remove/duplicate operations keeps layer ids pairwise distinct
and keeps the active id, when set, resolving to a layer of the
stack. -/
theorem C8_unique_ids_amended (ops : List LayerOp) :
    ∀ st : EditorState, stackInv st → FreshSeq st ops →
      stackInv (applyLayerOps st ops) := by
  induction ops with
  | nil => intro st hinv _; exact hinv
  | cons op rest ih =>
    intro st hinv hfresh
    obtain ⟨hop, hrest⟩ := hfresh
    apply ih _ _ hrest
    cases op with
    | add cw ch files => exact stackInv_addImagesAux cw ch files 0 st hinv hop.1 hop.2
    | remove id => exact stackInv_deleteLayer st id hinv
    | dup now id =>
      exact stackInv_duplicateLayer st now id hinv (hop.2 now (by simp [opIds]))

/-- C8 witness: the amended invariant at a concrete fresh sequence —
a two-image batch, a delete and a duplicate with non-colliding clock
readings. -/
theorem C8_unique_ids_amended_witness :
    stackInv emptyState ∧ FreshSeq emptyState c8freshOps
    ∧ stackInv (applyLayerOps emptyState c8freshOps) := by
  have h1 : stackInv emptyState := by
    constructor
    · exact List.nodup_nil
    · intro aid ha
      cases ha
  have h2 : FreshSeq emptyState c8freshOps := by
    refine ⟨⟨by decide, ?_⟩, ⟨by decide, ?_⟩, ⟨by decide, ?_⟩, trivial⟩
    · intro n hn
      simp only [opIds] at hn
      intro hmem
      cases hmem
    · intro n hn
      cases hn
    · intro n hn
      simp only [opIds] at hn
      rcases List.mem_singleton.mp hn with rfl
      decide
  exact ⟨h1, h2, C8_unique_ids_amended c8freshOps emptyState h1 h2⟩

/-- C1, counterexample: a resize pointerMove on the unlocked, visible
active layer with the `nw` handle at (95, 95) recomputes a 5×5 size,
fails the minimum-size check, yet still moves `x` and `y` to 95 — so
the opposite (se) corner jumps from (100, 100) to (195, 195) instead
of staying pinned. -/
theorem C1_counterexample :
    findActive c1state = some c1layer
    ∧ c1layer.isVisible = true
    ∧ c1layer.isLocked = false
    ∧ c1state.isResizing = true
    ∧ c1state.activeHandle = some Handle.nw
    ∧ findActive (handleInteractionMove c1state 95 95)
        = some { c1layer with x := 95, y := 95 }
    ∧ getHandlePositions { c1layer with x := 95, y := 95 } Handle.nw.opposite
        ≠ getHandlePositions c1layer Handle.nw.opposite := by
  refine ⟨by decide, by decide, by decide, by decide, by decide, ?_, ?_⟩
  · rw [findActive_after_resize c1state 95 95 c1layer Handle.nw
      (by decide) (by decide) (by decide) (by decide)]
    norm_num [resizeImage, resizeNewSize, c1layer]
  · norm_num [getHandlePositions, c1layer, Pos.mk.injEq]

/-- C1 (amended): a resize pointerMove on the unlocked, visible active
layer preserves the pinned opposite corner exactly, for all four
corner handles, whenever the recomputed size passes the minimum-size
check (newWidth > 20 and newHeight > 20, the case in which the resize
is committed); a rejected move can still shift the north/west edge. -/
theorem C1_pinned_corner_amended (st : EditorState) (px py : ℚ)
    (image : CanvasImage) (hd : Handle)
    (hfa : findActive st = some image)
    (hvis : image.isVisible = true)
    (hlk : image.isLocked = false)
    (hres : st.isResizing = true)
    (hh : st.activeHandle = some hd)
    (hcommit : 20 < (resizeNewSize image hd px py).1
      ∧ 20 < (resizeNewSize image hd px py).2) :
    findActive (handleInteractionMove st px py)
      = some (resizeImage image hd px py)
    ∧ getHandlePositions (resizeImage image hd px py) hd.opposite
        = getHandlePositions image hd.opposite := by
  refine ⟨findActive_after_resize st px py image hd hfa hlk hres hh, ?_⟩
  cases hd with
  | nw =>
    simp [resizeImage, getHandlePositions, hcommit.1, hcommit.2, Pos.mk.injEq]
  | ne =>
    simp [resizeImage, getHandlePositions, hcommit.1, hcommit.2, Pos.mk.injEq]
  | sw =>
    simp [resizeImage, getHandlePositions, hcommit.1, hcommit.2, Pos.mk.injEq]
  | se =>
    simp [resizeImage, getHandlePositions, hcommit.1, hcommit.2, Pos.mk.injEq]

/-- C1 witness: the amended statement at a committed `nw` resize of a
100×100 layer towards (30, 30): the layer becomes 70×70 at (30, 30)
and the se corner stays at (100, 100). -/
theorem C1_pinned_corner_amended_witness :
    (20 < (resizeNewSize c1layer Handle.nw 30 30).1
      ∧ 20 < (resizeNewSize c1layer Handle.nw 30 30).2)
    ∧ (findActive (handleInteractionMove c1state 30 30)
        = some (resizeImage c1layer Handle.nw 30 30)
      ∧ getHandlePositions (resizeImage c1layer Handle.nw 30 30)
          Handle.nw.opposite
        = getHandlePositions c1layer Handle.nw.opposite) :=
  ⟨by norm_num [resizeNewSize, c1layer],
   C1_pinned_corner_amended c1state 30 30 c1layer Handle.nw (by decide)
     (by decide) (by decide) (by decide) (by decide)
     (by norm_num [resizeNewSize, c1layer])⟩

/-- C2: on a resize pointerMove of the unlocked active layer, when the
recomputed size fails the minimum floor (20 logical pixels) the layer
keeps its pre-move width and height, and in every case a layer that
starts with positive size still has positive width and height after
the move. -/
theorem C2_resize_reject_keeps_size (st : EditorState) (px py : ℚ)
    (image : CanvasImage) (hd : Handle)
    (hfa : findActive st = some image)
    (hlk : image.isLocked = false)
    (hres : st.isResizing = true)
    (hh : st.activeHandle = some hd)
    (hw : 0 < image.width) (hht : 0 < image.height) :
    findActive (handleInteractionMove st px py)
      = some (resizeImage image hd px py)
    ∧ (¬ (20 < (resizeNewSize image hd px py).1
          ∧ 20 < (resizeNewSize image hd px py).2) →
        (resizeImage image hd px py).width = image.width
        ∧ (resizeImage image hd px py).height = image.height)
    ∧ 0 < (resizeImage image hd px py).width
    ∧ 0 < (resizeImage image hd px py).height := by
  refine ⟨findActive_after_resize st px py image hd hfa hlk hres hh, ?_, ?_, ?_⟩
  · intro hrej
    constructor
    · show (if 20 < (resizeNewSize image hd px py).1
          ∧ 20 < (resizeNewSize image hd px py).2
        then (resizeNewSize image hd px py).1 else image.width) = image.width
      rw [if_neg hrej]
    · show (if 20 < (resizeNewSize image hd px py).1
          ∧ 20 < (resizeNewSize image hd px py).2
        then (resizeNewSize image hd px py).2 else image.height) = image.height
      rw [if_neg hrej]
  · show 0 < (if 20 < (resizeNewSize image hd px py).1
        ∧ 20 < (resizeNewSize image hd px py).2
      then (resizeNewSize image hd px py).1 else image.width)
    by_cases hcm : 20 < (resizeNewSize image hd px py).1
        ∧ 20 < (resizeNewSize image hd px py).2
    · rw [if_pos hcm]
      linarith [hcm.1]
    · rw [if_neg hcm]
      exact hw
  · show 0 < (if 20 < (resizeNewSize image hd px py).1
        ∧ 20 < (resizeNewSize image hd px py).2
      then (resizeNewSize image hd px py).2 else image.height)
    by_cases hcm : 20 < (resizeNewSize image hd px py).1
        ∧ 20 < (resizeNewSize image hd px py).2
    · rw [if_pos hcm]
      linarith [hcm.2]
    · rw [if_neg hcm]
      exact hht

/-- C2 witness: the rejected `nw` resize towards (95, 95) keeps the
100×100 size of the layer, which stays positive. -/
theorem C2_resize_reject_keeps_size_witness :
    (0 : ℚ) < c1layer.width ∧ (0 : ℚ) < c1layer.height
    ∧ (findActive (handleInteractionMove c1state 95 95)
        = some (resizeImage c1layer Handle.nw 95 95)
      ∧ (¬ (20 < (resizeNewSize c1layer Handle.nw 95 95).1
            ∧ 20 < (resizeNewSize c1layer Handle.nw 95 95).2) →
          (resizeImage c1layer Handle.nw 95 95).width = c1layer.width
          ∧ (resizeImage c1layer Handle.nw 95 95).height = c1layer.height)
      ∧ 0 < (resizeImage c1layer Handle.nw 95 95).width
      ∧ 0 < (resizeImage c1layer Handle.nw 95 95).height) :=
  ⟨by norm_num [c1layer], by norm_num [c1layer],
   C2_resize_reject_keeps_size c1state 95 95 c1layer Handle.nw (by decide)
     (by decide) (by decide) (by decide) (by norm_num [c1layer])
     (by norm_num [c1layer])⟩

/-- C3: a layer whose `isLocked` flag is true survives every sequence
of pointer events with its record — in particular its x, y, width and
height — unchanged; and after a pointerDown that starts a drag on an
unlocked layer, a pointerMove puts the layer at exactly its old
position plus the pointer delta. -/
theorem C3_locked_immobile_unlocked_drag_delta :
    (∀ (st : EditorState) (events : List PointerEvent) (img : CanvasImage),
        img ∈ st.canvasImages → img.isLocked = true →
        img ∈ (processEvents st events).canvasImages)
    ∧ (∀ (st : EditorState) (p0x p0y p1x p1y : ℚ)
        (above below : List CanvasImage) (image : CanvasImage),
        (interactionStartResizePhase st p0x p0y).2 = false →
        st.isResizing = false →
        splitTopHit p0x p0y st.canvasImages.reverse
          = some (above, image, below) →
        image.isLocked = false →
        (st.canvasImages.map (fun img => img.id)).Nodup →
        findActive (processEvents st
            [PointerEvent.down p0x p0y, PointerEvent.move p1x p1y])
          = some { image with
              x := image.x + (p1x - p0x)
              y := image.y + (p1y - p0y) }) := by
  constructor
  · intro st events img hmem hlk
    exact locked_mem_processEvents events st img hmem hlk
  · intro st p0x p0y p1x p1y above below image hnr hisr hsp hlk hnod
    have hshape := start_hit_unlocked st p0x p0y above below image hnr hsp hlk
    -- ids of the reversed stack are still pairwise distinct
    have hrev : st.canvasImages.reverse = above ++ image :: below :=
      splitTopHit_eq_append p0x p0y _ above below image hsp
    have hnodrev : ((above ++ image :: below).map (fun img => img.id)).Nodup := by
      rw [← hrev, List.map_reverse]
      exact List.nodup_reverse.mpr hnod
    rw [List.map_append, List.map_cons, List.nodup_append] at hnodrev
    obtain ⟨hnodA, hnodC, hdisj⟩ := hnodrev
    have himg_above : ∀ a ∈ above, a.id ≠ image.id := by
      intro a haa he
      exact hdisj (List.mem_map_of_mem _ haa)
        (he ▸ List.mem_cons_self _ _)
    have himg_below : ∀ a ∈ below, a.id ≠ image.id := by
      intro a hab he
      rw [List.nodup_cons] at hnodC
      exact hnodC.1 (he ▸ List.mem_map_of_mem _ hab)
    -- the spliced stack still finds the dragged layer first by id
    have hnone : ∀ ls : List CanvasImage, (∀ a ∈ ls, a.id ≠ image.id) →
        ls.find? (fun img => img.id == image.id) = none := by
      intro ls hls
      apply List.find?_eq_none.mpr
      intro a ha2
      simp only [beq_iff_eq]
      exact hls a ha2
    have hfindBA : (below.reverse ++ above.reverse).find?
        (fun img => img.id == image.id) = none := by
      rw [find?_append_eq, hnone below.reverse
        (fun a ha => himg_below a (List.mem_reverse.mp ha)),
        hnone above.reverse
        (fun a ha => himg_above a (List.mem_reverse.mp ha))]
    have hfindL : (below.reverse ++ above.reverse ++ [image]).find?
        (fun img => img.id == image.id) = some image := by
      rw [find?_append_eq, hfindBA]
      simp
    -- the state after pointerDown
    have hfaR : findActive (handleInteractionStart st p0x p0y) = some image := by
      rw [hshape]
      unfold findActive
      exact hfindL
    have hresR : (handleInteractionStart st p0x p0y).isResizing = false := by
      rw [hshape]
      show (interactionStartResizePhase st p0x p0y).1.isResizing = false
      rw [resizePhase_isResizing st p0x p0y hnr]
      exact hisr
    have hdrR : (handleInteractionStart st p0x p0y).isDragging = true := by
      rw [hshape]
    -- the move event dispatches to handleInteractionMove
    have hdisp : processEvents st
        [PointerEvent.down p0x p0y, PointerEvent.move p1x p1y]
        = handleInteractionMove (handleInteractionStart st p0x p0y) p1x p1y := by
      show processEvent (handleInteractionStart st p0x p0y)
        (PointerEvent.move p1x p1y) = _
      unfold processEvent
      dsimp only
      rw [hdrR]
      rfl
    rw [hdisp,
      findActive_after_drag (handleInteractionStart st p0x p0y) p1x p1y image
        hfaR hlk hresR hdrR]
    have hdx : (handleInteractionStart st p0x p0y).dragStartX = p0x - image.x := by
      rw [hshape]
    have hdy : (handleInteractionStart st p0x p0y).dragStartY = p0y - image.y := by
      rw [hshape]
    rw [hdx, hdy,
      show p1x - (p0x - image.x) = image.x + (p1x - p0x) from by ring,
      show p1y - (p0y - image.y) = image.y + (p1y - p0y) from by ring]

/-- C3 witness: dragging the locked layer leaves its record in the
stack untouched, and the same gesture after unlocking moves the layer
by exactly the pointer delta (down at (10, 10), move to (25, 30):
the layer at (5, 5) ends at (20, 25)). -/
theorem C3_locked_immobile_unlocked_drag_delta_witness :
    (c3locked ∈ c3lockedState.canvasImages ∧ c3locked.isLocked = true
      ∧ c3locked ∈ (processEvents c3lockedState
          [PointerEvent.down 10 10, PointerEvent.move 25 30,
           PointerEvent.up]).canvasImages)
    ∧ (splitTopHit 10 10 c3unlockedState.canvasImages.reverse
        = some ([], c3unlocked, [])
      ∧ findActive (processEvents c3unlockedState
          [PointerEvent.down 10 10, PointerEvent.move 25 30])
        = some { c3unlocked with
            x := c3unlocked.x + (25 - 10)
            y := c3unlocked.y + (30 - 10) }) := by
  have hhit : hitRect c3unlocked 10 10 = true :=
    (hitRect_eq_true_iff c3unlocked 10 10).mpr
      (by norm_num [c3unlocked, c3locked])
  have hcond : (c3unlocked.isVisible && hitRect c3unlocked 10 10) = true := by
    rw [hhit]
    decide
  have hsp : splitTopHit 10 10 c3unlockedState.canvasImages.reverse
      = some ([], c3unlocked, []) := by
    show splitTopHit 10 10 [c3unlocked].reverse = _
    simp [splitTopHit, hcond]
  constructor
  · exact ⟨by decide, by decide,
      C3_locked_immobile_unlocked_drag_delta.1 c3lockedState
        [PointerEvent.down 10 10, PointerEvent.move 25 30, PointerEvent.up]
        c3locked (by decide) (by decide)⟩
  · exact ⟨hsp, C3_locked_immobile_unlocked_drag_delta.2 c3unlockedState
      10 10 25 30 [] [] c3unlocked (by decide) (by decide) hsp
      (by decide) (by decide)⟩

/-- C9: when the pointerDown position is not over a handle of the
active layer, the layer selected by `handleInteractionStart` is exactly
the topmost visible layer whose rectangle contains the point (the first
match iterating the stack from its last element), independent of
insertion order; nothing under the pointer clears the selection; an
unlocked hit starts a drag and moves the layer to the top of the
stack; a locked hit only selects. -/
theorem C9_topmost_visible_selection (st : EditorState) (px py : ℚ)
    (hnr : (interactionStartResizePhase st px py).2 = false) :
    (handleInteractionStart st px py).activeImageId
      = (specTopmostVisibleHit st.canvasImages px py).map (fun img => img.id)
    ∧ (∀ img, specTopmostVisibleHit st.canvasImages px py = some img →
        img.isLocked = false →
        (handleInteractionStart st px py).isDragging = true
        ∧ (handleInteractionStart st px py).canvasImages.getLast? = some img)
    ∧ (∀ img, specTopmostVisibleHit st.canvasImages px py = some img →
        img.isLocked = true →
        (handleInteractionStart st px py).canvasImages = st.canvasImages
        ∧ (handleInteractionStart st px py).isDragging = st.isDragging) := by
  have hspec : (splitTopHit px py st.canvasImages.reverse).map (fun t => t.2.1)
      = specTopmostVisibleHit st.canvasImages px py :=
    splitTopHit_find? px py st.canvasImages.reverse
  cases hsp : splitTopHit px py st.canvasImages.reverse with
  | none =>
    rw [hsp] at hspec
    rw [start_no_hit st px py hnr hsp]
    refine ⟨?_, ?_, ?_⟩
    · rw [← hspec]
      rfl
    · intro img himg
      rw [← hspec] at himg
      cases himg
    · intro img himg
      rw [← hspec] at himg
      cases himg
  | some t =>
    obtain ⟨above, image, below⟩ := t
    rw [hsp] at hspec
    have hspec' : specTopmostVisibleHit st.canvasImages px py = some image :=
      hspec.symm
    cases hlk : image.isLocked with
    | true =>
      rw [start_hit_locked st px py above below image hnr hsp hlk]
      refine ⟨?_, ?_, ?_⟩
      · rw [hspec']
        rfl
      · intro img himg himglk
        rw [hspec'] at himg
        have : img = image := by injection himg.symm
        subst this
        rw [himglk] at hlk
        cases hlk
      · intro img himg _
        constructor
        · show (interactionStartResizePhase st px py).1.canvasImages
            = st.canvasImages
          exact (resizePhase_preserves st px py).1
        · show (interactionStartResizePhase st px py).1.isDragging
            = st.isDragging
          exact (resizePhase_preserves st px py).2.2.1
    | false =>
      rw [start_hit_unlocked st px py above below image hnr hsp hlk]
      refine ⟨?_, ?_, ?_⟩
      · rw [hspec']
        rfl
      · intro img himg _
        rw [hspec'] at himg
        have : img = image := by injection himg.symm
        subst this
        refine ⟨rfl, ?_⟩
        show ((below.reverse ++ above.reverse) ++ [img]).getLast? = some img
        exact List.getLast?_concat _
      · intro img himg himglk
        rw [hspec'] at himg
        have : img = image := by injection himg.symm
        subst this
        rw [himglk] at hlk
        cases hlk

/-- C9 witness: two fully overlapping visible unlocked layers; a click
at (10, 10) selects the topmost (id 2), starts a drag, and keeps it on
top of the stack. -/
theorem C9_topmost_visible_selection_witness :
    (interactionStartResizePhase c9state 10 10).2 = false
    ∧ specTopmostVisibleHit c9state.canvasImages 10 10 = some c9top
    ∧ (handleInteractionStart c9state 10 10).activeImageId
        = (specTopmostVisibleHit c9state.canvasImages 10 10).map
            (fun img => img.id)
    ∧ ((handleInteractionStart c9state 10 10).isDragging = true
      ∧ (handleInteractionStart c9state 10 10).canvasImages.getLast?
          = some c9top) := by
  have hhit : hitRect c9top 10 10 = true :=
    (hitRect_eq_true_iff c9top 10 10).mpr (by norm_num [c9top])
  have hcond : (c9top.isVisible && hitRect c9top 10 10) = true := by
    rw [hhit]
    decide
  have hspec : specTopmostVisibleHit c9state.canvasImages 10 10 = some c9top := by
    show specTopmostVisibleHit [c9bottom, c9top] 10 10 = _
    simp [specTopmostVisibleHit, List.find?_cons, hcond]
  have h := C9_topmost_visible_selection c9state 10 10 (by decide)
  exact ⟨by decide, hspec, h.1, h.2.1 c9top hspec (by decide)⟩

end ImageEditor
